import Mathlib

/-
Shallow embedding of the Energy Harvester Management System
(source: src/index.ts, an azle canister).

Modelling conventions:
  - JS number is modelled as an exact rational (the claims are about the
    summation structure, not floating-point rounding).
  - nat64 timestamps are Nat.
  - The StableBTreeMap is a key-sorted association list; insert is
    insert-or-replace, values returns entities in key order (the iteration
    order of a BTree map).
  - Result from azle is Except String.
  - The uuid the code mints at creation time is passed in as an explicit
    freshId argument, since identifier generation is an external service.
  - Functions that mutate the store return the new store explicitly.
  - The try/catch wrappers in the source guard operations that cannot fail
    in this model, so they have no counterpart here.
-/

set_option linter.unusedVariables false

namespace EHMS

structure EnergyRecord where
  id : String
  source : String
  powerGenerated : ℚ
  timestamp : ℕ
deriving DecidableEq

structure EnergyHarvester where
  id : String
  name : String
  location : String
  energyRecords : List EnergyRecord
deriving DecidableEq

/-- Payload for updateEnergyHarvester (the EnergyPayload of the docs):
name, location and records, with no id field. -/
structure EnergyPayload where
  name : String
  location : String
  energyRecords : List EnergyRecord
deriving DecidableEq

/-- energyHarvesterStorage: key-sorted association list standing for the
StableBTreeMap from String to EnergyHarvester. -/
abbrev Store := List (String × EnergyHarvester)

/-- StableBTreeMap.get: exact-key lookup, returns an optional value. -/
def storeGet : Store → String → Option EnergyHarvester
  | [], _ => none
  | (k, v) :: rest, id => if k = id then some v else storeGet rest id

/-- StableBTreeMap.insert: insert-or-replace, keeping keys sorted. -/
def insertStore : Store → String → EnergyHarvester → Store
  | [], k, v => [(k, v)]
  | (k', v') :: rest, k, v =>
    if k < k' then (k, v) :: (k', v') :: rest
    else if k = k' then (k, v) :: rest
    else (k', v') :: insertStore rest k v

/-- StableBTreeMap.remove: deletes the entry if present and returns the
removed entity together with the remaining store. -/
def removeStore : Store → String → Option EnergyHarvester × Store
  | [], _ => (none, [])
  | (k, v) :: rest, id =>
    if k = id then (some v, rest)
    else
      let pr := removeStore rest id
      (pr.1, (k, v) :: pr.2)

/-- StableBTreeMap.values: every stored entity in store iteration order. -/
def storeValues (s : Store) : List EnergyHarvester := s.map Prod.snd

/-- The shared validation condition of addEnergyHarvester and
updateEnergyHarvester: in JS, not payload.name is true exactly when the
string is empty, and payload.energyRecords.length === 0 means the record
list is empty. -/
def hasMissingFields (name location : String) (records : List EnergyRecord) : Bool :=
  name = "" || location = "" || records.isEmpty

/-- The JS object literal written as: id colon harvesterId, spread of
payload. The spread comes after the explicit id field, and payload has
every field of EnergyHarvester including id, so each field of payload
overrides: the minted harvesterId is discarded and the result carries
payload.id. -/
def spreadAfterId (harvesterId : String) (payload : EnergyHarvester) : EnergyHarvester :=
  { id := payload.id
    name := payload.name
    location := payload.location
    energyRecords := payload.energyRecords }

/-- addEnergyHarvester: validate, mint an id (freshId plays the role of
uuidv4), build the new harvester by JS spread, insert it under its id. -/
def addEnergyHarvester (s : Store) (freshId : String) (payload : EnergyHarvester) :
    Except String EnergyHarvester × Store :=
  if hasMissingFields payload.name payload.location payload.energyRecords then
    (.error "Missing required fields in the energy harvester object", s)
  else
    let newHarvester := spreadAfterId freshId payload
    (.ok newHarvester, insertStore s newHarvester.id newHarvester)

/-- getEnergyHarvester: rejects an empty id, otherwise wraps the raw
optional result of StableBTreeMap.get in Ok. The source never matches the
optional against Some and None here, so an absent id yields a success
carrying no entity rather than an error. -/
def getEnergyHarvester (s : Store) (id : String) : Except String (Option EnergyHarvester) :=
  if id = "" then .error "Invalid ID for getting an energy harvester."
  else .ok (storeGet s id)

/-- updateEnergyHarvester: rejects an empty id, validates the payload,
then replaces name, location and energyRecords of the stored entity
wholesale, keeping its id. -/
def updateEnergyHarvester (s : Store) (id : String) (payload : EnergyPayload) :
    Except String EnergyHarvester × Store :=
  if id = "" then (.error "Invalid ID for updating an energy harvester.", s)
  else if hasMissingFields payload.name payload.location payload.energyRecords then
    (.error "Missing required fields in the energy harvester object", s)
  else
    match storeGet s id with
    | some existingHarvester =>
      let updatedHarvester : EnergyHarvester :=
        { existingHarvester with
          name := payload.name
          location := payload.location
          energyRecords := payload.energyRecords }
      (.ok updatedHarvester, insertStore s id updatedHarvester)
    | none => (.error ("Energy harvester with id=" ++ id ++ " does not exist"), s)

/-- lowercase: String.prototype.toLowerCase, character by character. -/
def lowercase (s : String) : String := String.mk (s.toList.map Char.toLower)

/-- includes: JS a.includes b, that is b occurs in a as a contiguous
substring. -/
def includes (a b : String) : Bool := decide (b.toList <:+: a.toList)

/-- The filter predicate of searchEnergyHarvesters. -/
def matchesQuery (lowerCaseQuery : String) (h : EnergyHarvester) : Bool :=
  includes (lowercase h.name) lowerCaseQuery || includes (lowercase h.location) lowerCaseQuery

/-- searchEnergyHarvesters: case-insensitive substring filter over the
stored values, in store iteration order. -/
def searchEnergyHarvesters (s : Store) (query : String) :
    Except String (List EnergyHarvester) :=
  .ok ((storeValues s).filter (matchesQuery (lowercase query)))

/-- deleteEnergyHarvester: rejects an empty id, then removes and returns
the entity, or reports that the id does not exist. -/
def deleteEnergyHarvester (s : Store) (id : String) :
    Except String EnergyHarvester × Store :=
  if id = "" then (.error "Invalid ID for deleting an energy harvester.", s)
  else
    match removeStore s id with
    | (some deletedHarvester, s') => (.ok deletedHarvester, s')
    | (none, s') => (.error ("Energy harvester with id=" ++ id ++ " does not exist"), s')

/-- getTotalPowerGenerated: forEach accumulation of powerGenerated over
every record of every stored harvester, as a left fold. -/
def getTotalPowerGenerated (s : Store) : Except String ℚ :=
  .ok ((storeValues s).foldl
    (fun totalPower h =>
      h.energyRecords.foldl (fun acc r => acc + r.powerGenerated) totalPower)
    0)

/-- getAveragePowerGenerated: one pass accumulating the running total and
the record count, then an explicit zero check before dividing. -/
def getAveragePowerGenerated (s : Store) : Except String ℚ :=
  let acc := (storeValues s).foldl
    (fun acc h =>
      h.energyRecords.foldl (fun acc r => (acc.1 + r.powerGenerated, acc.2 + 1)) acc)
    ((0 : ℚ), (0 : ℕ))
  if acc.2 = 0 then .error "No energy records found"
  else .ok (acc.1 / (acc.2 : ℚ))

/-- The operations that mutate the store, for reachability statements.
The freshId of an add is the uuid the identifier source hands out. -/
inductive Op where
  | add (freshId : String) (payload : EnergyHarvester)
  | update (id : String) (payload : EnergyPayload)
  | delete (id : String)

/-- Apply one mutating operation to the store. -/
def applyOp (s : Store) : Op → Store
  | .add freshId payload => (addEnergyHarvester s freshId payload).2
  | .update id payload => (updateEnergyHarvester s id payload).2
  | .delete id => (deleteEnergyHarvester s id).2

/-- Run a sequence of mutating operations from a starting store. -/
def runOps (s : Store) (ops : List Op) : Store := ops.foldl applyOp s

/-- Specification-side sum: powerGenerated summed over the records of one
harvester. -/
def specHarvesterPower (h : EnergyHarvester) : ℚ :=
  (h.energyRecords.map (fun r => r.powerGenerated)).sum

/-- Specification-side sum: powerGenerated summed over every record of
every stored harvester. -/
def specTotalPower (s : Store) : ℚ :=
  ((storeValues s).map specHarvesterPower).sum

/-- Specification-side count of all records across all stored harvesters. -/
def specRecordCount (s : Store) : ℕ :=
  ((storeValues s).map (fun h => h.energyRecords.length)).sum

/-- Sample record used by concrete witnesses. -/
def sampleRecord : EnergyRecord :=
  { id := "r1", source := "wind", powerGenerated := 150, timestamp := 1000 }

/-- A valid creation payload with a non-empty caller-supplied id field. -/
def goodPayload : EnergyHarvester :=
  { id := "hv-1", name := "Turbine A", location := "North Field"
    energyRecords := [sampleRecord] }

/-- A valid creation payload whose id field is the empty string. -/
def emptyIdPayload : EnergyHarvester :=
  { id := "", name := "Turbine C", location := "East Field"
    energyRecords := [sampleRecord] }

/-- An invalid creation payload: empty name. -/
def badPayload : EnergyHarvester :=
  { id := "hv-2", name := "", location := "West Field"
    energyRecords := [sampleRecord] }

/-- A valid update payload. -/
def goodUpdate : EnergyPayload :=
  { name := "Turbine B", location := "South Field", energyRecords := [sampleRecord] }

/-- An invalid update payload: empty location. -/
def badUpdate : EnergyPayload :=
  { name := "Turbine D", location := "", energyRecords := [sampleRecord] }

/-- Looking up the key just inserted yields the inserted entity. -/
theorem storeGet_insertStore_self (s : Store) (k : String) (v : EnergyHarvester) :
    storeGet (insertStore s k v) k = some v := by
  induction s with
  | nil => simp [insertStore, storeGet]
  | cons hd tl ih =>
    obtain ⟨k', v'⟩ := hd
    by_cases hlt : k < k'
    · simp [insertStore, hlt, storeGet]
    · by_cases heq : k = k'
      · simp [insertStore, hlt, heq, storeGet]
      · have hne : k' ≠ k := fun h => heq h.symm
        simp [insertStore, hlt, heq, storeGet, hne, ih]

/-- Every entry of the store after an insert is the inserted pair or an
entry that was already there. -/
theorem mem_insertStore (s : Store) (k : String) (v : EnergyHarvester)
    (x : String × EnergyHarvester) (hx : x ∈ insertStore s k v) :
    x = (k, v) ∨ x ∈ s := by
  induction s with
  | nil => simpa [insertStore] using hx
  | cons hd tl ih =>
    obtain ⟨k', v'⟩ := hd
    by_cases hlt : k < k'
    · simp only [insertStore, if_pos hlt, List.mem_cons] at hx
      rcases hx with h | h | h
      · exact Or.inl h
      · exact Or.inr (by simp [h])
      · exact Or.inr (List.mem_cons_of_mem _ h)
    · by_cases heq : k = k'
      · simp only [insertStore, if_neg hlt, if_pos heq, List.mem_cons] at hx
        rcases hx with h | h
        · exact Or.inl h
        · exact Or.inr (List.mem_cons_of_mem _ h)
      · simp only [insertStore, if_neg hlt, if_neg heq, List.mem_cons] at hx
        rcases hx with h | h
        · exact Or.inr (by simp [h])
        · rcases ih h with h' | h'
          · exact Or.inl h'
          · exact Or.inr (List.mem_cons_of_mem _ h')

/-- Every entry of the store after a removal was already in the store. -/
theorem mem_removeStore_snd (s : Store) (id : String)
    (x : String × EnergyHarvester) (hx : x ∈ (removeStore s id).2) : x ∈ s := by
  induction s with
  | nil => simp [removeStore] at hx
  | cons hd tl ih =>
    obtain ⟨k, v⟩ := hd
    by_cases hk : k = id
    · simp only [removeStore, if_pos hk] at hx
      exact List.mem_cons_of_mem _ hx
    · simp only [removeStore, if_neg hk, List.mem_cons] at hx
      rcases hx with h | h
      · simp [h]
      · exact List.mem_cons_of_mem _ (ih h)

/-- The key invariant predicate: every key equals the id of the entity
stored under it. -/
def KeysMatchIds (s : Store) : Prop := ∀ x ∈ s, x.1 = x.2.id

/-- Under the key invariant, a successful lookup returns an entity whose
id is the looked-up key. -/
theorem storeGet_id (s : Store) (id : String) (e : EnergyHarvester)
    (hinv : KeysMatchIds s) (h : storeGet s id = some e) : e.id = id := by
  induction s with
  | nil => simp [storeGet] at h
  | cons hd tl ih =>
    obtain ⟨k, v⟩ := hd
    by_cases hk : k = id
    · simp only [storeGet, if_pos hk, Option.some.injEq] at h
      have := hinv (k, v) (List.mem_cons_self _ _)
      simp only at this
      rw [← h, ← this, hk]
    · simp only [storeGet, if_neg hk] at h
      exact ih (fun x hx => hinv x (List.mem_cons_of_mem _ hx)) h

/-- Inserting a pair whose key is the entity id preserves the key
invariant. -/
theorem keysMatchIds_insert (s : Store) (k : String) (v : EnergyHarvester)
    (hinv : KeysMatchIds s) (hk : k = v.id) :
    KeysMatchIds (insertStore s k v) := by
  intro x hx
  rcases mem_insertStore s k v x hx with h | h
  · simp [h, hk]
  · exact hinv x h

/-- Removal preserves the key invariant. -/
theorem keysMatchIds_remove (s : Store) (id : String) (hinv : KeysMatchIds s) :
    KeysMatchIds (removeStore s id).2 :=
  fun x hx => hinv x (mem_removeStore_snd s id x hx)

/-- Every mutating operation preserves the key invariant. -/
theorem keysMatchIds_applyOp (s : Store) (op : Op) (hinv : KeysMatchIds s) :
    KeysMatchIds (applyOp s op) := by
  cases op with
  | add freshId payload =>
    simp only [applyOp, addEnergyHarvester]
    split
    · exact hinv
    · exact keysMatchIds_insert s _ _ hinv rfl
  | update id payload =>
    simp only [applyOp, updateEnergyHarvester]
    split
    · exact hinv
    · split
      · exact hinv
      · cases hget : storeGet s id with
        | some existingHarvester =>
          simp only [hget]
          exact keysMatchIds_insert s _ _ hinv
            (storeGet_id s id existingHarvester hinv hget).symm
        | none => simp only [hget]; exact hinv
  | delete id =>
    simp only [applyOp, deleteEnergyHarvester]
    split
    · exact hinv
    · cases hrem : removeStore s id with
      | mk fst snd =>
        have := keysMatchIds_remove s id hinv
        rw [hrem] at this
        cases fst <;> simpa using this

/-- Running any operation sequence preserves the key invariant. -/
theorem keysMatchIds_runOps (s : Store) (ops : List Op) (hinv : KeysMatchIds s) :
    KeysMatchIds (runOps s ops) := by
  induction ops generalizing s with
  | nil => exact hinv
  | cons op rest ih => exact ih (applyOp s op) (keysMatchIds_applyOp s op hinv)

/-- The inner accumulation over one record list equals the starting value
plus the sum of powerGenerated. -/
theorem foldl_power (l : List EnergyRecord) (init : ℚ) :
    l.foldl (fun acc r => acc + r.powerGenerated) init =
      init + (l.map (fun r => r.powerGenerated)).sum := by
  induction l generalizing init with
  | nil => simp
  | cons r rest ih => simp [ih, add_assoc]

/-- The outer accumulation over the harvester list equals the starting
value plus the total power. -/
theorem foldl_total_power (l : List EnergyHarvester) (init : ℚ) :
    l.foldl (fun totalPower h =>
        h.energyRecords.foldl (fun acc r => acc + r.powerGenerated) totalPower) init =
      init + (l.map specHarvesterPower).sum := by
  induction l generalizing init with
  | nil => simp
  | cons h rest ih =>
    rw [List.foldl_cons, ih, foldl_power]
    simp [specHarvesterPower, add_assoc]

/-- The paired accumulation over one record list tracks the power sum in
the first component and the record count in the second. -/
theorem foldl_power_count (l : List EnergyRecord) (init : ℚ × ℕ) :
    l.foldl (fun acc r => (acc.1 + r.powerGenerated, acc.2 + 1)) init =
      (init.1 + (l.map (fun r => r.powerGenerated)).sum, init.2 + l.length) := by
  induction l generalizing init with
  | nil => simp
  | cons r rest ih => simp [ih, add_assoc, add_comm 1 rest.length]

/-- The paired accumulation over the harvester list tracks total power and
total record count. -/
theorem foldl_total_power_count (l : List EnergyHarvester) (init : ℚ × ℕ) :
    l.foldl (fun acc h =>
        h.energyRecords.foldl (fun acc r => (acc.1 + r.powerGenerated, acc.2 + 1)) acc) init =
      (init.1 + (l.map specHarvesterPower).sum,
        init.2 + (l.map (fun h => h.energyRecords.length)).sum) := by
  induction l generalizing init with
  | nil => simp
  | cons h rest ih =>
    rw [List.foldl_cons, ih, foldl_power_count]
    simp [specHarvesterPower, add_assoc]

/-- The validation condition fires exactly on a missing required field. -/
theorem hasMissingFields_eq_true (name location : String) (records : List EnergyRecord) :
    hasMissingFields name location records = true ↔
      name = "" ∨ location = "" ∨ records = [] := by
  simp [hasMissingFields, List.isEmpty_iff, or_assoc]

/-- C1 (amended): for every valid payload whose id field is non-empty,
addEnergyHarvester succeeds with some entity e and new store, and
getEnergyHarvester on e.id over the new store succeeds with exactly e
(wrapped in the optional that getEnergyHarvester returns). -/
theorem create_get_roundtrip (s : Store) (freshId : String) (p : EnergyHarvester)
    (hname : p.name ≠ "") (hloc : p.location ≠ "") (hrec : p.energyRecords ≠ [])
    (hid : p.id ≠ "") :
    ∃ e s', addEnergyHarvester s freshId p = (.ok e, s') ∧
      getEnergyHarvester s' e.id = .ok (some e) := by
  have hmf : hasMissingFields p.name p.location p.energyRecords = false := by
    cases hmf : hasMissingFields p.name p.location p.energyRecords
    · rfl
    · rcases (hasMissingFields_eq_true _ _ _).1 hmf with h | h | h
      · exact absurd h hname
      · exact absurd h hloc
      · exact absurd h hrec
  refine ⟨spreadAfterId freshId p, insertStore s p.id (spreadAfterId freshId p), ?_, ?_⟩
  · simp [addEnergyHarvester, hmf, spreadAfterId]
  · have hpid : (spreadAfterId freshId p).id = p.id := rfl
    simp [getEnergyHarvester, hpid, hid, storeGet_insertStore_self]

/-- C1 witness: concrete instance of the amended round trip. -/
theorem create_get_roundtrip_witness :
    ∃ e s', addEnergyHarvester [] "uuid-7" goodPayload = (.ok e, s') ∧
      getEnergyHarvester s' e.id = .ok (some e) :=
  create_get_roundtrip [] "uuid-7" goodPayload (by decide) (by decide) (by decide) (by decide)

/-- C1 counterexample: the claim as stated fails for the valid payload
whose id field is empty. The JS spread makes the created entity carry the
empty id of the payload, and getEnergyHarvester on the empty id then
signals InvalidArgument instead of returning the created entity. -/
theorem create_get_roundtrip_counterexample :
    emptyIdPayload.name ≠ "" ∧ emptyIdPayload.location ≠ "" ∧
    emptyIdPayload.energyRecords ≠ [] ∧
    (addEnergyHarvester [] "fresh-uuid" emptyIdPayload).1 = .ok emptyIdPayload ∧
    getEnergyHarvester (addEnergyHarvester [] "fresh-uuid" emptyIdPayload).2
        emptyIdPayload.id =
      .error "Invalid ID for getting an energy harvester." :=
  ⟨by decide, by decide, by decide, rfl, rfl⟩

/-- C2: the claim says the created entity carries a freshly minted id and
the caller-supplied id never determines it. In the code the JS spread of
the payload overrides the minted id, so the created entity and its store
key carry the payload id, not the minted uuid. Evaluated at the failing
input: payload with id hv-1, minted uuid minted-uuid. -/
theorem addEnergyHarvester_uses_payload_id :
    (addEnergyHarvester [] "minted-uuid" goodPayload).1 = .ok goodPayload ∧
    goodPayload.id = "hv-1" ∧
    ("hv-1" : String) ≠ "minted-uuid" ∧
    (addEnergyHarvester [] "minted-uuid" goodPayload).2 = [("hv-1", goodPayload)] :=
  ⟨rfl, rfl, by decide, by decide⟩

/-- C3: the claim says a non-empty absent id signals NotFound. The code
wraps the raw optional from the store in Ok without matching it, so an
absent id yields a success carrying no entity. The empty-id and present-id
arms behave as claimed. -/
theorem getEnergyHarvester_absent_is_ok_none :
    getEnergyHarvester [] "missing-id" = .ok none ∧
    getEnergyHarvester [] "" = .error "Invalid ID for getting an energy harvester." ∧
    getEnergyHarvester [("hv-1", goodPayload)] "hv-1" = .ok (some goodPayload) :=
  ⟨rfl, rfl, rfl⟩

/-- C4: addEnergyHarvester and updateEnergyHarvester (the latter under a
non-empty id) reject exactly the payloads with an empty name, an empty
location or no records, with the fixed validation message; every payload
passing the check is never rejected with that message. -/
theorem validation_gate (s : Store) (freshId : String) (p : EnergyHarvester)
    (id : String) (q : EnergyPayload) :
    ((p.name = "" ∨ p.location = "" ∨ p.energyRecords = []) →
      (addEnergyHarvester s freshId p).1 =
        .error "Missing required fields in the energy harvester object") ∧
    (id ≠ "" → (q.name = "" ∨ q.location = "" ∨ q.energyRecords = []) →
      (updateEnergyHarvester s id q).1 =
        .error "Missing required fields in the energy harvester object") ∧
    (p.name ≠ "" → p.location ≠ "" → p.energyRecords ≠ [] →
      (addEnergyHarvester s freshId p).1 = .ok (spreadAfterId freshId p)) ∧
    (id ≠ "" → q.name ≠ "" → q.location ≠ "" → q.energyRecords ≠ [] →
      ((∃ e, (updateEnergyHarvester s id q).1 = .ok e) ∨
        (updateEnergyHarvester s id q).1 =
          .error ("Energy harvester with id=" ++ id ++ " does not exist"))) := by
  refine ⟨?_, ?_, ?_, ?_⟩
  · intro hbad
    have hmf : hasMissingFields p.name p.location p.energyRecords = true :=
      (hasMissingFields_eq_true _ _ _).2 hbad
    simp [addEnergyHarvester, hmf]
  · intro hid hbad
    have hmf : hasMissingFields q.name q.location q.energyRecords = true :=
      (hasMissingFields_eq_true _ _ _).2 hbad
    simp [updateEnergyHarvester, hid, hmf]
  · intro h1 h2 h3
    have hmf : hasMissingFields p.name p.location p.energyRecords = false := by
      cases hmf : hasMissingFields p.name p.location p.energyRecords
      · rfl
      · rcases (hasMissingFields_eq_true _ _ _).1 hmf with h | h | h
        · exact absurd h h1
        · exact absurd h h2
        · exact absurd h h3
    simp [addEnergyHarvester, hmf, spreadAfterId]
  · intro hid h1 h2 h3
    have hmf : hasMissingFields q.name q.location q.energyRecords = false := by
      cases hmf : hasMissingFields q.name q.location q.energyRecords
      · rfl
      · rcases (hasMissingFields_eq_true _ _ _).1 hmf with h | h | h
        · exact absurd h h1
        · exact absurd h h2
        · exact absurd h h3
    cases hget : storeGet s id with
    | some e =>
      refine Or.inl ⟨{ e with name := q.name, location := q.location, energyRecords := q.energyRecords }, ?_⟩
      simp [updateEnergyHarvester, hid, hmf, hget]
    | none => exact Or.inr (by simp [updateEnergyHarvester, hid, hmf, hget])

/-- C4 witness: concrete rejections and a concrete pass. -/
theorem validation_gate_witness :
    (addEnergyHarvester [] "uuid-1" badPayload).1 =
      .error "Missing required fields in the energy harvester object" ∧
    (updateEnergyHarvester [] "hv-9" badUpdate).1 =
      .error "Missing required fields in the energy harvester object" ∧
    (addEnergyHarvester [] "uuid-2" goodPayload).1 =
      .ok (spreadAfterId "uuid-2" goodPayload) :=
  ⟨(validation_gate [] "uuid-1" badPayload "hv-9" badUpdate).1 (Or.inl rfl),
   (validation_gate [] "uuid-1" badPayload "hv-9" badUpdate).2.1 (by decide)
     (Or.inr (Or.inl rfl)),
   (validation_gate [] "uuid-2" goodPayload "hv-9" badUpdate).2.2.1
     (by decide) (by decide) (by decide)⟩

/-- C5: searchEnergyHarvesters always succeeds, returning exactly the
stored harvesters, in store iteration order, whose lower-cased name or
lower-cased location contains the lower-cased query as a substring; the
empty query returns every stored harvester. -/
theorem search_characterization (s : Store) (query : String) :
    ∃ l, searchEnergyHarvesters s query = .ok l ∧
      l = (storeValues s).filter (matchesQuery (lowercase query)) ∧
      (∀ h, h ∈ l ↔ h ∈ storeValues s ∧
        ((lowercase query).toList <:+: (lowercase h.name).toList ∨
         (lowercase query).toList <:+: (lowercase h.location).toList)) ∧
      searchEnergyHarvesters s "" = .ok (storeValues s) := by
  refine ⟨_, rfl, rfl, ?_, ?_⟩
  · intro h
    simp [List.mem_filter, matchesQuery, includes]
  · have hall : ∀ h : EnergyHarvester, matchesQuery (lowercase "") h = true := by
      intro h
      have hnil : (lowercase "").toList = [] := rfl
      simp only [matchesQuery, includes, Bool.or_eq_true, decide_eq_true_eq]
      exact Or.inl (by rw [hnil]; exact List.nil_infix)
    simp only [searchEnergyHarvesters, Except.ok.injEq]
    rw [List.filter_eq_self]
    intro a _
    exact hall a

/-- C6: the claim says delete on a present id returns the stored entity
and a subsequent getEnergyHarvester on that id signals NotFound. The
delete half behaves as claimed, but getEnergyHarvester wraps the raw
optional in Ok, so after the delete it returns Ok none rather than a
NotFound error. Evaluated at the failing input: store holding hv-1. -/
theorem delete_then_get_is_ok_none :
    deleteEnergyHarvester [("hv-1", goodPayload)] "hv-1" = (.ok goodPayload, []) ∧
    getEnergyHarvester
        (deleteEnergyHarvester [("hv-1", goodPayload)] "hv-1").2 "hv-1" =
      .ok none :=
  ⟨rfl, rfl⟩

/-- C7: getTotalPowerGenerated always succeeds with the sum of
powerGenerated over every record of every stored harvester, and yields 0
on the empty store. -/
theorem totalPower_correct (s : Store) :
    getTotalPowerGenerated s = .ok (specTotalPower s) ∧
    getTotalPowerGenerated ([] : Store) = .ok 0 := by
  constructor
  · simp [getTotalPowerGenerated, specTotalPower, foldl_total_power]
  · rfl

/-- C8: getAveragePowerGenerated signals the no-data error exactly when
the total record count is zero, and otherwise returns the total power of
getTotalPowerGenerated divided by the record count. -/
theorem averagePower_correct (s : Store) :
    ∃ t, getTotalPowerGenerated s = .ok t ∧
      getAveragePowerGenerated s =
        (if specRecordCount s = 0 then .error "No energy records found"
         else .ok (t / (specRecordCount s : ℚ))) := by
  refine ⟨specTotalPower s, ?_, ?_⟩
  · simp [getTotalPowerGenerated, specTotalPower, foldl_total_power]
  · simp [getAveragePowerGenerated, foldl_total_power_count, specTotalPower,
      specRecordCount]

/-- C9: in every store reachable from the empty store by add, update and
delete operations, every key equals the id field of the entity stored
under it. -/
theorem store_key_invariant (ops : List Op) (k : String) (h : EnergyHarvester)
    (hmem : (k, h) ∈ runOps [] ops) : k = h.id :=
  keysMatchIds_runOps [] ops (fun x hx => absurd hx (List.not_mem_nil x)) (k, h) hmem

/-- C9 witness: the store reached by one add satisfies the invariant at
its single entry. -/
theorem store_key_invariant_witness : ("hv-1" : String) = goodPayload.id :=
  store_key_invariant [Op.add "uuid-3" goodPayload] "hv-1" goodPayload (by decide)

/-- C10: whenever updateEnergyHarvester returns an error, the store is
left exactly as it was. -/
theorem update_error_preserves_store (s : Store) (id : String) (q : EnergyPayload)
    (msg : String) (herr : (updateEnergyHarvester s id q).1 = .error msg) :
    (updateEnergyHarvester s id q).2 = s := by
  by_cases hid : id = ""
  · simp [updateEnergyHarvester, hid]
  · by_cases hmf : hasMissingFields q.name q.location q.energyRecords = true
    · simp [updateEnergyHarvester, hid, hmf]
    · cases hget : storeGet s id with
      | some e =>
        exfalso
        simp [updateEnergyHarvester, hid, hmf, hget] at herr
      | none => simp [updateEnergyHarvester, hid, hmf, hget]

/-- C10 witness: a not-found update leaves the empty store empty. -/
theorem update_error_preserves_store_witness :
    (updateEnergyHarvester [] "hv-404" goodUpdate).2 = [] :=
  update_error_preserves_store [] "hv-404" goodUpdate
    "Energy harvester with id=hv-404 does not exist" rfl

end EHMS
